import Mathlib

/-!
Shallow embedding of kube-federated-auth (github.com/rophy/kube-federated-auth).

Go strings are modelled as Lean `String` where only equality and prefix
operations matter, and as `List Char` where the code slices and searches
byte sequences (credential-secret keys, URLs). Go maps are modelled as
functions `String → Option _` or as association lists where the code
iterates over the map. Fallible Go calls (`error` returns) are modelled
with `Except String`. Network and filesystem effects (token verification,
base64 decoding, secret persistence, the registration POST) are passed in
as explicit function arguments or outcome values, so the handlers' control
flow is a pure function of those outcomes.
-/

namespace KubeFedAuth

/-- Token claims, as extracted by `VerifierManager.Verify` (internal/oidc).
Only the fields the handlers inspect are modelled. -/
structure ClaimsE where
  subject : String
  issuer : String
  deriving DecidableEq

/-- Outcome of `VerifierManager.Verify(ctx, clusterName, rawToken)`:
success with claims, or an error. -/
abbrev VerifyFun := String → String → Except String ClaimsE

/-- True when an `Except` is `ok` (a Go call that returned `err == nil`). -/
def exceptOk {α : Type} (e : Except String α) : Bool :=
  match e with
  | .ok _ => true
  | .error _ => false

/-- Error message returned by `detectCluster` when no cluster verifies the
token (internal/handler tokenreview). -/
def detectErrMsg : String := "token signature does not match any configured cluster"

/-- `TokenReviewHandler.detectCluster`: try each configured cluster in map
iteration order (modelled as a list); return the first cluster whose
`Verify` succeeds, else an empty cluster name and an error. -/
def detectCluster (verify : VerifyFun) (token : String) : List String → String × Option String
  | [] => ("", some detectErrMsg)
  | c :: rest =>
    match verify c token with
    | .ok _ => (c, none)
    | .error _ => detectCluster verify token rest

/-- If every configured cluster fails to verify the token, `detectCluster`
returns an empty name and the generic error. -/
theorem detectCluster_all_fail (verify : VerifyFun) (token : String) :
    ∀ clusters : List String, (∀ d ∈ clusters, exceptOk (verify d token) = false) →
      detectCluster verify token clusters = ("", some detectErrMsg) := by
  intro clusters
  induction clusters with
  | nil => intro _; rfl
  | cons c rest ih =>
    intro h
    have hc := h c (List.mem_cons_self c rest)
    unfold detectCluster
    cases hv : verify c token with
    | ok cl => rw [hv] at hc; simp [exceptOk] at hc
    | error e => exact ih fun d hd => h d (List.mem_cons_of_mem c hd)

/-- If exactly one configured cluster verifies the token, `detectCluster`
returns that cluster with no error, whatever the iteration order. -/
theorem detectCluster_unique (verify : VerifyFun) (token : String) :
    ∀ (clusters : List String) (c : String), c ∈ clusters →
      exceptOk (verify c token) = true →
      (∀ d ∈ clusters, d ≠ c → exceptOk (verify d token) = false) →
      detectCluster verify token clusters = (c, none) := by
  intro clusters
  induction clusters with
  | nil => intro c hc; exact absurd hc (List.not_mem_nil c)
  | cons a rest ih =>
    intro c hc hok hrest
    unfold detectCluster
    cases hv : verify a token with
    | ok cl =>
      by_cases hac : a = c
      · rw [hac]
      · have := hrest a (List.mem_cons_self a rest) hac
        rw [hv] at this
        simp [exceptOk] at this
    | error e =>
      have hcr : c ∈ rest := by
        rcases List.mem_cons.mp hc with h | h
        · rw [h] at hok; rw [hv] at hok; simp [exceptOk] at hok
        · exact h
      exact ih c hcr hok fun d hd hdc => hrest d (List.mem_cons_of_mem a hd) hdc

/-- Claim C1: for every token such that exactly one configured cluster
verifies it, `detectCluster` returns that cluster with no error; and for
every token that no configured cluster verifies, `detectCluster` returns
an empty cluster name and an error. -/
theorem claim_C1_detectCluster (verify : VerifyFun) (clusters : List String)
    (token c : String) :
    (c ∈ clusters → exceptOk (verify c token) = true →
      (∀ d ∈ clusters, d ≠ c → exceptOk (verify d token) = false) →
      detectCluster verify token clusters = (c, none))
    ∧ ((∀ d ∈ clusters, exceptOk (verify d token) = false) →
      detectCluster verify token clusters = ("", some detectErrMsg)) :=
  ⟨fun hc hok hrest => detectCluster_unique verify token clusters c hc hok hrest,
   fun hall => detectCluster_all_fail verify token clusters hall⟩

/-- Demo verifier for witnesses: only cluster "beta" verifies any token. -/
def vDemo : VerifyFun := fun c _ =>
  if c = "beta" then .ok ⟨"system:serviceaccount:default:sa", "https://beta"⟩
  else .error "verifying token: signature mismatch"

/-- Witness for C1 at a concrete verifier and cluster lists. -/
theorem claim_C1_detectCluster_witness :
    detectCluster vDemo "tok" ["alpha", "beta"] = ("beta", none)
    ∧ detectCluster vDemo "tok" ["alpha", "gamma"] = ("", some detectErrMsg) := by
  constructor
  · exact (claim_C1_detectCluster vDemo ["alpha", "beta"] "tok" "beta").1
      (by decide) (by decide) (by decide)
  · exact (claim_C1_detectCluster vDemo ["alpha", "gamma"] "tok" "beta").2 (by decide)

/-- Decoded TokenReview request body (only `spec.token` is inspected). -/
structure TokenReviewE where
  token : String
  deriving DecidableEq

/-- Status of the TokenReview returned by the remote cluster's API server,
as forwarded verbatim by the handler. -/
structure RemoteTR where
  authenticated : Bool
  username : String
  error : String
  deriving DecidableEq

/-- Observable response of the token-review handler: HTTP status plus the
TokenReviewStatus fields written to the body. -/
structure TRReviewOut where
  httpStatus : Nat
  authenticated : Bool
  error : String
  username : String
  deriving DecidableEq

/-- `TokenReviewHandler.writeError`: sets the HTTP status code and an
unauthenticated TokenReview body carrying the message. -/
def writeErrorOut (code : Nat) (msg : String) : TRReviewOut :=
  ⟨code, false, msg, ""⟩

/-- `TokenReviewHandler.writeUnauthenticated`: HTTP 200 with
`authenticated=false` and the given error message. -/
def writeUnauthenticatedOut (msg : String) : TRReviewOut :=
  ⟨200, false, msg, ""⟩

/-- Outcome of `forwardTokenReview` for the detected cluster. -/
abbrev ForwardFun := String → TokenReviewE → Except String RemoteTR

/-- `TokenReviewHandler.ServeHTTP` (the cluster-detecting handler):
decode the body, require a token, require a configured verifier/config,
detect the source cluster, forward the TokenReview, and on detection
failure answer with the fixed generic rejection. -/
def trServeHTTP (clusters : List String) (verify : VerifyFun) (forward : ForwardFun)
    (configured : Bool) (body : Option TokenReviewE) : TRReviewOut :=
  match body with
  | none => writeErrorOut 400 "invalid request body"
  | some tr =>
    if tr.token = "" then writeErrorOut 400 "token is required"
    else if ¬ configured then writeUnauthenticatedOut "server not configured"
    else
      match detectCluster verify tr.token clusters with
      | (_, some _) => writeUnauthenticatedOut "token not valid for any configured cluster"
      | (cluster, none) =>
        match forward cluster tr with
        | .error e => writeUnauthenticatedOut ("failed to validate token: " ++ e)
        | .ok result => ⟨200, result.authenticated, result.error, result.username⟩

/-- Claim C2: when no configured cluster verifies the token, the handler
answers `authenticated=false` with the fixed string "token not valid for
any configured cluster"; two such runs under different cluster
configurations produce identical responses. -/
theorem claim_C2_generic_rejection
    (clusters₁ clusters₂ : List String) (verify₁ verify₂ : VerifyFun)
    (fwd₁ fwd₂ : ForwardFun) (tr₁ tr₂ : TokenReviewE)
    (ht₁ : tr₁.token ≠ "") (ht₂ : tr₂.token ≠ "")
    (hall₁ : ∀ d ∈ clusters₁, exceptOk (verify₁ d tr₁.token) = false)
    (hall₂ : ∀ d ∈ clusters₂, exceptOk (verify₂ d tr₂.token) = false) :
    trServeHTTP clusters₁ verify₁ fwd₁ true (some tr₁)
      = writeUnauthenticatedOut "token not valid for any configured cluster"
    ∧ (trServeHTTP clusters₁ verify₁ fwd₁ true (some tr₁)).authenticated = false
    ∧ trServeHTTP clusters₁ verify₁ fwd₁ true (some tr₁)
      = trServeHTTP clusters₂ verify₂ fwd₂ true (some tr₂) := by
  have h₁ : trServeHTTP clusters₁ verify₁ fwd₁ true (some tr₁)
      = writeUnauthenticatedOut "token not valid for any configured cluster" := by
    have hd := detectCluster_all_fail verify₁ tr₁.token clusters₁ hall₁
    simp [trServeHTTP, hd, ht₁]
  have h₂ : trServeHTTP clusters₂ verify₂ fwd₂ true (some tr₂)
      = writeUnauthenticatedOut "token not valid for any configured cluster" := by
    have hd := detectCluster_all_fail verify₂ tr₂.token clusters₂ hall₂
    simp [trServeHTTP, hd, ht₂]
  exact ⟨h₁, by rw [h₁]; rfl, by rw [h₁, h₂]⟩

/-- A verifier that rejects every token, for the C2 witness. -/
def vRejectAll : VerifyFun := fun _ _ => .error "verifying token: signature mismatch"

/-- A forwarder that never succeeds, for witnesses (never reached). -/
def fwdDemo : ForwardFun := fun _ _ => .error "unreachable"

/-- Witness for C2 at two concrete, different cluster configurations. -/
theorem claim_C2_generic_rejection_witness :
    trServeHTTP ["alpha", "beta"] vRejectAll fwdDemo true (some ⟨"tok1"⟩)
      = writeUnauthenticatedOut "token not valid for any configured cluster"
    ∧ trServeHTTP ["alpha", "beta"] vRejectAll fwdDemo true (some ⟨"tok1"⟩)
      = trServeHTTP ["gamma"] vRejectAll fwdDemo true (some ⟨"tok2"⟩) := by
  have h := claim_C2_generic_rejection ["alpha", "beta"] ["gamma"]
    vRejectAll vRejectAll fwdDemo fwdDemo ⟨"tok1"⟩ ⟨"tok2"⟩
    (by decide) (by decide) (by decide) (by decide)
  exact ⟨h.1, h.2.2⟩

/-- Credentials for a cluster (internal/credentials): bearer token and CA
certificate bytes. CA bytes are modelled as `List Char`. -/
structure CredsR where
  token : String
  caCert : List Char
  deriving DecidableEq

/-- The Store's in-memory `credentials` map. -/
abbrev CredMap := String → Option CredsR

/-- `Store.Get`: look up a cluster's credentials in the in-memory map. -/
def storeGet (m : CredMap) (cluster : String) : Option CredsR := m cluster

/-- The in-memory map update performed by `Store.Set` under the lock. -/
def storeSetMem (m : CredMap) (cluster : String) (creds : CredsR) : CredMap :=
  fun k => if k = cluster then some creds else m k

/-- `Store.Set`: always update the in-memory map; then, when a Kubernetes
client is present, persist to the Secret, wrapping any persistence error.
The persistence outcome of `saveToSecret` is passed in as `persist`. -/
def storeSet (hasClient : Bool) (persist : Except String Unit) (m : CredMap)
    (cluster : String) (creds : CredsR) : CredMap × Except String Unit :=
  let m' := storeSetMem m cluster creds
  if hasClient then
    match persist with
    | .error e => (m', .error ("persisting credentials: " ++ e))
    | .ok _ => (m', .ok ())
  else (m', .ok ())

/-- Claim C8: when the durable persistence write fails, `Set` still
updates the in-memory map — a subsequent `Get` returns exactly the new
credentials — and the persistence error is propagated to the caller. -/
theorem claim_C8_set_persist_error (m : CredMap) (cluster : String)
    (creds : CredsR) (e : String) :
    storeGet (storeSet true (.error e) m cluster creds).1 cluster = some creds
    ∧ (storeSet true (.error e) m cluster creds).2
      = .error ("persisting credentials: " ++ e) := by
  constructor
  · simp [storeSet, storeGet, storeSetMem]
  · rfl

/-- Per-cluster agent allow-list entry (internal/config `AgentConfig`). -/
structure AgentConfigE where
  serviceAccount : String
  deriving DecidableEq

/-- Per-cluster configuration (internal/config `ClusterConfig`). URL and
path fields are byte sequences; the empty list is Go's empty string. -/
structure ClusterConfigE where
  issuer : List Char := []
  apiServer : List Char := []
  caCert : List Char := []
  tokenPath : List Char := []
  deriving DecidableEq

/-- Service configuration (internal/config `Config`): clusters and the
agent allow-list, both Go maps modelled as association lists. -/
structure ConfigE where
  clusters : List (String × ClusterConfigE)
  agents : List (String × AgentConfigE)

/-- First-match association-list lookup, the Go map read `m[k]`. -/
def lookupStr {α : Type} : List (String × α) → String → Option α
  | [], _ => none
  | (k, v) :: rest, key => if k = key then some v else lookupStr rest key

/-- `Config.IsAgentAuthorized`: false when the cluster has no agent entry,
else compare the configured ServiceAccount with the token subject. -/
def IsAgentAuthorized (cfg : ConfigE) (cluster serviceAccount : String) : Bool :=
  match lookupStr cfg.agents cluster with
  | none => false
  | some agent => agent.serviceAccount == serviceAccount

/-- Decoded registration request body. `caCert` is the base64 text. -/
structure RegisterRequestE where
  cluster : String
  token : String
  caCert : String
  deriving DecidableEq

/-- JSON body written by the register handler: an ErrorResponse with its
error code and message, or the accepted response. -/
inductive RegisterBody
  | err (code : String) (message : String)
  | accepted (cluster : String)
  deriving DecidableEq

/-- Observable outcome of one register-handler execution: HTTP status,
body, resulting in-memory credential map, and the clusters whose cached
verifier was invalidated, in call order. -/
structure RegisterOut where
  status : Nat
  body : RegisterBody
  store : CredMap
  invalidated : List String

/-- Outcome of `credentials.ParseBase64CACert` on the request's CA text. -/
abbrev B64Fun := String → Except String (List Char)

/-- Go `strings.HasPrefix`, on the byte sequences of the two strings. -/
def goHasPre (p s : String) : Bool := p.data.isPrefixOf s.data

/-- Go string slicing `s[n:]` (drop the first n bytes). -/
def goDropStr (s : String) (n : Nat) : String := ⟨s.data.drop n⟩

/-- `RegisterHandler.ServeHTTP`: header checks, body checks, cluster
lookup, token verification, allow-list check, base64 decode, `Store.Set`
(with the given persistence outcome), then verifier invalidation and the
accepted response. On a `Set` error the handler answers 500 and returns
without invalidating. -/
def registerServeHTTP (cfg : ConfigE) (verify : VerifyFun) (b64 : B64Fun)
    (hasClient : Bool) (persist : Except String Unit) (st : CredMap)
    (authHeader : String) (body : Option RegisterRequestE) : RegisterOut :=
  if authHeader = "" then
    ⟨401, .err "unauthorized" "Authorization header required", st, []⟩
  else if goHasPre "Bearer " authHeader = false then
    ⟨401, .err "unauthorized" "Bearer token required", st, []⟩
  else
    let agentToken := goDropStr authHeader 7
    match body with
    | none => ⟨400, .err "invalid_request" "Invalid request body", st, []⟩
    | some req =>
      if req.cluster = "" then
        ⟨400, .err "invalid_request" "cluster is required", st, []⟩
      else
        match lookupStr cfg.clusters req.cluster with
        | none =>
          ⟨400, .err "cluster_not_found" ("No configuration found for cluster: " ++ req.cluster), st, []⟩
        | some _ =>
          match verify req.cluster agentToken with
          | .error _ => ⟨401, .err "invalid_token" "Agent token validation failed", st, []⟩
          | .ok claims =>
            if ¬ IsAgentAuthorized cfg req.cluster claims.subject then
              ⟨403, .err "unauthorized_agent"
                ("ServiceAccount not authorized to register credentials for " ++ req.cluster), st, []⟩
            else
              match b64 req.caCert with
              | .error _ => ⟨400, .err "invalid_request" "Invalid CA certificate encoding", st, []⟩
              | .ok ca =>
                match storeSet hasClient persist st req.cluster ⟨req.token, ca⟩ with
                | (st', .error _) => ⟨500, .err "internal_error" "Failed to store credentials", st', []⟩
                | (st', .ok _) => ⟨200, .accepted req.cluster, st', [req.cluster]⟩

/-- Claim C4: a registration whose bearer token verifies against the named
cluster but whose subject fails the agent allow-list is rejected with 403
and error code "unauthorized_agent", with the store unchanged and no
verifier invalidated. -/
theorem claim_C4_unauthorized_agent (cfg : ConfigE) (verify : VerifyFun)
    (b64 : B64Fun) (hasClient : Bool) (persist : Except String Unit)
    (st : CredMap) (ah : String) (req : RegisterRequestE)
    (claims : ClaimsE) (cc : ClusterConfigE)
    (hpre : goHasPre "Bearer " ah = true)
    (hcl : req.cluster ≠ "")
    (hcfg : lookupStr cfg.clusters req.cluster = some cc)
    (hver : verify req.cluster (goDropStr ah 7) = Except.ok claims)
    (hauth : IsAgentAuthorized cfg req.cluster claims.subject = false) :
    (registerServeHTTP cfg verify b64 hasClient persist st ah (some req)).status = 403
    ∧ (registerServeHTTP cfg verify b64 hasClient persist st ah (some req)).body
      = .err "unauthorized_agent"
        ("ServiceAccount not authorized to register credentials for " ++ req.cluster)
    ∧ (registerServeHTTP cfg verify b64 hasClient persist st ah (some req)).store = st
    ∧ (registerServeHTTP cfg verify b64 hasClient persist st ah (some req)).invalidated = [] := by
  have hne : ah ≠ "" := by
    intro h
    subst h
    exact absurd hpre (by decide)
  have hout : registerServeHTTP cfg verify b64 hasClient persist st ah (some req)
      = ⟨403, .err "unauthorized_agent"
          ("ServiceAccount not authorized to register credentials for " ++ req.cluster), st, []⟩ := by
    simp [registerServeHTTP, hne, hpre, hcl, hcfg, hver, hauth]
  exact ⟨by rw [hout], by rw [hout], by rw [hout], by rw [hout]⟩

/-- Concrete configuration for witnesses: one cluster "prod" whose
authorized agent is a fixed ServiceAccount. -/
def cfgDemo : ConfigE :=
  ⟨[("prod", {})], [("prod", ⟨"system:serviceaccount:kube-fed:agent"⟩)]⟩

/-- Base64 decoder outcome used in witnesses. -/
def b64Demo : B64Fun := fun _ => .ok ['c', 'a']

/-- Empty in-memory credential map. -/
def stEmpty : CredMap := fun _ => none

/-- Verifier for the C4 witness: accepts and reports an unauthorized
subject. -/
def vEvil : VerifyFun := fun _ _ => .ok ⟨"system:serviceaccount:other:intruder", "https://prod"⟩

/-- Witness for C4 at a concrete unauthorized registration. -/
theorem claim_C4_unauthorized_agent_witness :
    (registerServeHTTP cfgDemo vEvil b64Demo true (.ok ()) stEmpty "Bearer tok"
      (some ⟨"prod", "satoken", "Y2E="⟩)).status = 403
    ∧ (registerServeHTTP cfgDemo vEvil b64Demo true (.ok ()) stEmpty "Bearer tok"
      (some ⟨"prod", "satoken", "Y2E="⟩)).invalidated = [] := by
  have h := claim_C4_unauthorized_agent cfgDemo vEvil b64Demo true (.ok ()) stEmpty
    "Bearer tok" ⟨"prod", "satoken", "Y2E="⟩
    ⟨"system:serviceaccount:other:intruder", "https://prod"⟩ {}
    (by decide) (by decide) (by rfl) (by rfl) (by decide)
  exact ⟨h.1, h.2.2.2⟩

/-- Verifier for the C3 failing input: accepts with the authorized
subject. -/
def vAgent : VerifyFun := fun _ _ => .ok ⟨"system:serviceaccount:kube-fed:agent", "https://prod"⟩

/-- Claim C3 failing input: an otherwise valid registration whose Secret
persistence write fails. The in-memory map is updated with the new
credentials, the handler answers 500, and no verifier is invalidated —
the cached verifier built from the old credentials is retained. -/
theorem claim_C3_set_error_skips_invalidate :
    (registerServeHTTP cfgDemo vAgent b64Demo true (.error "secret write failed") stEmpty
      "Bearer tok" (some ⟨"prod", "satoken", "Y2E="⟩)).status = 500
    ∧ storeGet (registerServeHTTP cfgDemo vAgent b64Demo true (.error "secret write failed") stEmpty
      "Bearer tok" (some ⟨"prod", "satoken", "Y2E="⟩)).store "prod" = some ⟨"satoken", ['c', 'a']⟩
    ∧ (registerServeHTTP cfgDemo vAgent b64Demo true (.error "secret write failed") stEmpty
      "Bearer tok" (some ⟨"prod", "satoken", "Y2E="⟩)).invalidated = [] := by
  refine ⟨by decide, by decide, by decide⟩

/-- Fate of the agent process as driven by cmd/agent `main`. -/
inductive AgentFate
  | crashed (msg : String)
  | looping
  deriving DecidableEq

/-- cmd/agent `main`, startup part: a failed initial `registerWithRetry`
hits `log.Fatalf`, which terminates the process. -/
def agentStartup (initialResult : Except String Unit) : AgentFate :=
  match initialResult with
  | .error e => .crashed ("Initial registration failed: " ++ e)
  | .ok _ => .looping

/-- cmd/agent `main`, one iteration of the ticker loop: a failed
`registerWithRetry` is logged and the loop continues. -/
def agentRefreshStep (fate : AgentFate) (_result : Except String Unit) : AgentFate :=
  match fate with
  | .crashed m => .crashed m
  | .looping => .looping

/-- cmd/agent `main`: startup registration followed by the refresh loop,
consuming one `registerWithRetry` outcome per scheduled cycle. -/
def agentMain (initialResult : Except String Unit)
    (refreshResults : List (Except String Unit)) : AgentFate :=
  refreshResults.foldl agentRefreshStep (agentStartup initialResult)

/-- Claim C5 counterexample: when the initial registration attempt at
startup fails, the agent process crashes (`log.Fatalf`), contrary to the
claim that no cycle's total failure crashes the process. -/
theorem claim_C5_counterexample :
    agentMain (.error "connection refused") []
      = .crashed ("Initial registration failed: connection refused") := rfl

/-- Claim C5 (amended): every failed periodic refresh cycle after a
successful startup is logged and the loop continues — the process never
crashes — but a failed initial registration at startup terminates the
process via `log.Fatalf`. -/
theorem claim_C5_amended :
    (∀ refreshResults : List (Except String Unit),
      agentMain (.ok ()) refreshResults = .looping)
    ∧ (∀ (e : String) (refreshResults : List (Except String Unit)),
      agentMain (.error e) refreshResults
        = .crashed ("Initial registration failed: " ++ e)) := by
  constructor
  · intro rs
    show rs.foldl agentRefreshStep .looping = .looping
    induction rs with
    | nil => rfl
    | cons r rest ih => exact ih
  · intro e rs
    show rs.foldl agentRefreshStep (.crashed _) = .crashed _
    induction rs with
    | nil => rfl
    | cons r rest ih => exact ih

/-- cmd/agent `registerWithRetry` backoff: base delay 5s doubled per
attempt (`baseDelay * (1 << i)`), capped at 5min. Durations in
nanoseconds, as Go `time.Duration`. -/
def backoffDelay (i : Nat) : Nat :=
  let delay := 5000000000 * (1 <<< i)
  if delay > 300000000000 then 300000000000 else delay

/-- Outcome of one `register` attempt, by attempt index. -/
abbrev RegisterFun := Nat → Except String Unit

/-- The retry loop of `registerWithRetry`, from attempt `i` with `fuel`
attempts remaining: returns the overall result, the list of slept delays
in order, and the number of attempts made. -/
def retryFrom (register : RegisterFun) : Nat → Nat → String → Except String Unit × List Nat × Nat
  | _, 0, lastErr => (.error ("max retries exceeded: " ++ lastErr), [], 0)
  | i, fuel + 1, _ =>
    match register i with
    | .ok _ => (.ok (), [], 1)
    | .error e =>
      let rest := retryFrom register (i + 1) fuel e
      (rest.1, backoffDelay i :: rest.2.1, rest.2.2 + 1)

/-- cmd/agent `registerWithRetry`: at most 10 attempts starting from 0. -/
def registerWithRetry (register : RegisterFun) : Except String Unit × List Nat × Nat :=
  retryFrom register 0 10 ""

/-- The slept delays are exactly `backoffDelay` of the attempt indices. -/
theorem retryFrom_delays (register : RegisterFun) :
    ∀ (fuel i : Nat) (e : String),
      (retryFrom register i fuel e).2.1
        = (List.range' i (retryFrom register i fuel e).2.1.length).map backoffDelay := by
  intro fuel
  induction fuel with
  | zero => intro i e; rfl
  | succ f ih =>
    intro i e
    unfold retryFrom
    cases register i with
    | ok _ => rfl
    | error er =>
      simp only [List.length_cons]
      rw [List.range'_succ]
      simp only [List.map_cons, List.cons.injEq]
      exact ⟨trivial, ih (i + 1) er⟩

/-- The number of attempts is bounded by the remaining fuel. -/
theorem retryFrom_attempts_le (register : RegisterFun) :
    ∀ (fuel i : Nat) (e : String), (retryFrom register i fuel e).2.2 ≤ fuel := by
  intro fuel
  induction fuel with
  | zero => intro i e; exact Nat.le_refl 0
  | succ f ih =>
    intro i e
    unfold retryFrom
    cases register i with
    | ok _ => exact Nat.succ_le_succ (Nat.zero_le f)
    | error er => exact Nat.succ_le_succ (ih (i + 1) er)

/-- When every attempt in the window fails, the loop returns the
wrapping error built from the last attempt's failure. -/
theorem retryFrom_all_fail (register : RegisterFun) :
    ∀ (fuel i : Nat) (e : String), 0 < fuel →
      (∀ j, j < fuel → ∃ er, register (i + j) = .error er) →
      ∃ lastE, register (i + fuel - 1) = .error lastE
        ∧ (retryFrom register i fuel e).1 = .error ("max retries exceeded: " ++ lastE) := by
  intro fuel
  induction fuel with
  | zero => intro i e h; exact absurd h (Nat.lt_irrefl 0)
  | succ f ih =>
    intro i e _ hall
    obtain ⟨er, her⟩ := hall 0 (Nat.succ_pos f)
    rw [Nat.add_zero] at her
    cases hf : f with
    | zero =>
      refine ⟨er, ?_, ?_⟩
      · simpa using her
      · unfold retryFrom
        rw [her]
        rfl
    | succ f' =>
      rw [← hf]
      have hfpos : 0 < f := by rw [hf]; exact Nat.succ_pos f'
      obtain ⟨lastE, hlast, hres⟩ := ih (i + 1) er hfpos
        (fun j hj => by
          obtain ⟨er', her'⟩ := hall (j + 1) (Nat.succ_lt_succ hj)
          exact ⟨er', by rw [← her']; ring_nf⟩)
      refine ⟨lastE, ?_, ?_⟩
      · rw [show i + (f + 1) - 1 = i + 1 + f - 1 by omega] at *
        exact hlast
      · unfold retryFrom
        rw [her]
        exact hres

/-- Claim C6: the delay slept after the i-th failed attempt (0-based)
equals min(5s · 2^i, 5min); at most 10 attempts are made; and when all
attempts fail, `registerWithRetry` returns an error wrapping the last
attempt's failure. -/
theorem claim_C6_registerWithRetry (register : RegisterFun) :
    (∀ i, backoffDelay i = min (5000000000 * 2 ^ i) 300000000000)
    ∧ (registerWithRetry register).2.1
      = (List.range (registerWithRetry register).2.1.length).map backoffDelay
    ∧ (registerWithRetry register).2.2 ≤ 10
    ∧ ((∀ j, j < 10 → ∃ er, register j = .error er) →
      ∃ lastE, register 9 = .error lastE
        ∧ (registerWithRetry register).1 = .error ("max retries exceeded: " ++ lastE)) := by
  refine ⟨?_, ?_, ?_, ?_⟩
  · intro i
    unfold backoffDelay
    rw [Nat.shiftLeft_eq, Nat.one_mul]
    rcases Nat.lt_or_ge 300000000000 (5000000000 * 2 ^ i) with h | h
    · rw [if_pos h, Nat.min_eq_right (Nat.le_of_lt h)]
    · rw [if_neg (Nat.not_lt.mpr h), Nat.min_eq_left h]
  · have h := retryFrom_delays register 10 0 ""
    rw [List.range_eq_range']
    exact h
  · exact retryFrom_attempts_le register 10 0 ""
  · intro hall
    obtain ⟨lastE, hlast, hres⟩ := retryFrom_all_fail register 10 0 "" (by omega)
      (fun j hj => by simpa using hall j hj)
    exact ⟨lastE, by simpa using hlast, hres⟩

/-- Witness for C6: with every attempt failing, `registerWithRetry`
returns the wrapping error of the last failure. -/
theorem claim_C6_registerWithRetry_witness :
    (registerWithRetry (fun _ => Except.error "boom")).1
      = Except.error "max retries exceeded: boom" := by
  obtain ⟨lastE, hreg, hres⟩ :=
    (claim_C6_registerWithRetry (fun _ => Except.error "boom")).2.2.2
      (fun j _ => ⟨"boom", rfl⟩)
  have hE : lastE = "boom" := by
    have : Except.error (ε := String) (α := Unit) "boom" = Except.error lastE := hreg
    injection this with h
    exact h.symm
  rw [hE] at hres
  exact hres

/-- Go `strings.Contains(s, sub)`, recursing on `s`. -/
def goContainsSub (sub : List Char) : List Char → Bool
  | [] => sub.isEmpty
  | c :: t => sub.isPrefixOf (c :: t) || goContainsSub sub t

/-- Go `strings.TrimSuffix(s, suf)`: drop the suffix when present. -/
def goTrimSuf (s suf : List Char) : List Char :=
  if suf.isSuffixOf s then s.take (s.length - suf.length) else s

/-- The fixed JWKS path checked and appended by `rewriteJWKSURL`. -/
def jwksPathChars : List Char := "/openid/v1/jwks".data

/-- internal/oidc `rewriteJWKSURL`: when the advertised JWKS URL contains
the path "/openid/v1/jwks", point it at the API server instead; otherwise
return the advertised URL unchanged. -/
def rewriteJWKSURL (jwksURL apiServer : List Char) : List Char :=
  if goContainsSub jwksPathChars jwksURL then
    goTrimSuf apiServer "/".data ++ jwksPathChars
  else jwksURL

/-- `ClusterConfig.DiscoveryURL` (internal/config): the API server when
configured, else the issuer. -/
def DiscoveryURL (c : ClusterConfigE) : List Char :=
  if c.apiServer ≠ [] then c.apiServer else c.issuer

/-- OIDC discovery document fields used by `getOrCreateVerifier`. -/
structure OidcDiscovery where
  issuer : List Char
  jwksURL : List Char
  deriving DecidableEq

/-- Parameters of the verifier constructed by `getOrCreateVerifier`: the
endpoint the discovery document is fetched from, the key-set URL given to
`oidc.NewRemoteKeySet`, and the issuer given to `oidc.NewVerifier`. -/
structure VerifierSpecE where
  discoveryEndpoint : List Char
  jwksURL : List Char
  issuer : List Char
  skipClientIDCheck : Bool
  deriving DecidableEq

/-- The verifier-construction core of `VerifierManager.getOrCreateVerifier`
on a cache miss, given the fetched discovery document: rewrite the JWKS
URL only for clusters with an `api_server`, and validate the issuer claim
against the configured issuer. -/
def buildVerifier (cfg : ClusterConfigE) (discovery : OidcDiscovery) : VerifierSpecE :=
  let jwksURL :=
    if cfg.apiServer ≠ [] then rewriteJWKSURL discovery.jwksURL cfg.apiServer
    else discovery.jwksURL
  ⟨DiscoveryURL cfg, jwksURL, cfg.issuer, true⟩

/-- Claim C7: on a cache miss the discovery fetch targets the configured
api_server when non-empty and the issuer otherwise; the advertised JWKS
URL is rewritten to `<api_server>/openid/v1/jwks` exactly when the
api_server is non-empty and the advertised URL contains the path
"/openid/v1/jwks" (otherwise it is used unchanged); and the verifier
validates the issuer claim against the configured issuer. -/
theorem claim_C7_getOrCreateVerifier (cfg : ClusterConfigE) (d : OidcDiscovery) :
    (buildVerifier cfg d).discoveryEndpoint
      = (if cfg.apiServer ≠ [] then cfg.apiServer else cfg.issuer)
    ∧ (cfg.apiServer ≠ [] → goContainsSub jwksPathChars d.jwksURL = true →
      (buildVerifier cfg d).jwksURL = goTrimSuf cfg.apiServer "/".data ++ jwksPathChars)
    ∧ ((cfg.apiServer = [] ∨ goContainsSub jwksPathChars d.jwksURL = false) →
      (buildVerifier cfg d).jwksURL = d.jwksURL)
    ∧ (buildVerifier cfg d).issuer = cfg.issuer := by
  refine ⟨rfl, ?_, ?_, rfl⟩
  · intro hapi hcont
    simp [buildVerifier, rewriteJWKSURL, hapi, hcont]
  · intro h
    rcases h with h | h
    · simp [buildVerifier, h]
    · by_cases hapi : cfg.apiServer = []
      · simp [buildVerifier, hapi]
      · simp [buildVerifier, rewriteJWKSURL, hapi, h]

/-- Witness for C7: a remote cluster whose advertised JWKS URL carries the
internal issuer host, and a cluster without api_server. -/
theorem claim_C7_getOrCreateVerifier_witness :
    (buildVerifier ⟨"https://iss".data, "https://api:6443".data, [], []⟩
      ⟨"https://iss".data, "https://kubernetes.default.svc/openid/v1/jwks".data⟩).jwksURL
      = "https://api:6443/openid/v1/jwks".data
    ∧ (buildVerifier ⟨"https://iss".data, [], [], []⟩
      ⟨"https://iss".data, "https://iss/keys".data⟩).jwksURL = "https://iss/keys".data := by
  constructor
  · have h := (claim_C7_getOrCreateVerifier
      ⟨"https://iss".data, "https://api:6443".data, [], []⟩
      ⟨"https://iss".data, "https://kubernetes.default.svc/openid/v1/jwks".data⟩).2.1
      (by decide) (by decide)
    rw [h]
    decide
  · exact (claim_C7_getOrCreateVerifier ⟨"https://iss".data, [], [], []⟩
      ⟨"https://iss".data, "https://iss/keys".data⟩).2.2.1 (Or.inl rfl)

/-- Events of one `getOrCreateVerifier` execution, in program order. -/
inductive LockEvent
  | rLock
  | rUnlock
  | wLock
  | wUnlock
  | netFetch
  | mapWrite
  deriving DecidableEq

/-- Program-order event trace of `VerifierManager.getOrCreateVerifier`:
read-locked cache check; on a miss, write lock, double-check, and — still
under the write lock — the discovery fetch and the map write. -/
def getOrCreateVerifierTrace (cachedAtRead cachedAtWrite : Bool) : List LockEvent :=
  if cachedAtRead then [.rLock, .rUnlock]
  else
    [.rLock, .rUnlock, .wLock]
      ++ (if cachedAtWrite then [.wUnlock] else [.netFetch, .mapWrite, .wUnlock])

/-- Whether some `netFetch` event occurs while the write lock is held. -/
def fetchWhileWriteLocked : List LockEvent → Bool → Bool
  | [], _ => false
  | .wLock :: rest, _ => fetchWhileWriteLocked rest true
  | .wUnlock :: rest, _ => fetchWhileWriteLocked rest false
  | .netFetch :: rest, held => held || fetchWhileWriteLocked rest held
  | _ :: rest, held => fetchWhileWriteLocked rest held

/-- Claim C9 counterexample: on a double cache miss, the discovery fetch
happens while the write lock is held, contrary to the claim that the
fetch is never under the write lock. -/
theorem claim_C9_counterexample :
    fetchWhileWriteLocked (getOrCreateVerifierTrace false false) false = true := by decide

/-- Claim C9 (amended): the discovery fetch occurs only on a double cache
miss, and then it is performed while the write lock is held (serialized
with the map write by the double-checked locking); cache hits perform no
fetch. -/
theorem claim_C9_amended :
    ∀ cachedAtRead cachedAtWrite : Bool,
      fetchWhileWriteLocked (getOrCreateVerifierTrace cachedAtRead cachedAtWrite) false
        = (!cachedAtRead && !cachedAtWrite)
      ∧ (LockEvent.netFetch ∈ getOrCreateVerifierTrace cachedAtRead cachedAtWrite
        ↔ cachedAtRead = false ∧ cachedAtWrite = false) := by decide

/-- Key fragment "cluster-" of the credentials Secret (8 bytes). -/
def clusterKeyHead : List Char := "cluster-".data

/-- Key fragment "-token" (6 bytes). -/
def tokenSuf : List Char := "-token".data

/-- Key fragment "-ca.crt" (7 bytes). -/
def caSuf : List Char := "-ca.crt".data

/-- Secret key `cluster-<name>-token` written by `saveToSecret`. -/
def tokenKey (n : List Char) : List Char := clusterKeyHead ++ (n ++ tokenSuf)

/-- Secret key `cluster-<name>-ca.crt` written by `saveToSecret`. -/
def caKey (n : List Char) : List Char := clusterKeyHead ++ (n ++ caSuf)

/-- Credentials as byte sequences, as stored in the Secret data. -/
structure CredsB where
  token : List Char
  ca : List Char
  deriving DecidableEq

instance : Inhabited CredsB := ⟨⟨[], []⟩⟩

/-- `Store.saveToSecret`: serialize the in-memory map (iterated as an
association list) into Secret data, two keys per cluster. -/
def saveToSecretData : List (List Char × CredsB) → List (List Char × List Char)
  | [] => []
  | (n, c) :: rest => (tokenKey n, c.token) :: (caKey n, c.ca) :: saveToSecretData rest

/-- The key-parsing step of `Store.loadFromSecret`: keys longer than 8
bytes starting with "cluster-" whose remainder ends in "-token" (checked
first) or "-ca.crt" contribute a candidate cluster name. -/
def keyCandidate (key : List Char) : Option (List Char) :=
  if 8 < key.length ∧ key.take 8 = clusterKeyHead then
    let suf := key.drop 8
    if 6 < suf.length ∧ suf.drop (suf.length - 6) = tokenSuf then
      some (suf.take (suf.length - 6))
    else if 7 < suf.length ∧ suf.drop (suf.length - 7) = caSuf then
      some (suf.take (suf.length - 7))
    else none
  else none

/-- Candidate cluster names extracted from all Secret keys. -/
def candidateNames : List (List Char × List Char) → List (List Char)
  | [] => []
  | (k, _) :: rest =>
    match keyCandidate k with
    | some n => n :: candidateNames rest
    | none => candidateNames rest

/-- Secret data read `secret.Data[key]`. -/
def lookupKey : List (List Char × List Char) → List Char → Option (List Char)
  | [], _ => none
  | (k, v) :: rest, key => if k = key then some v else lookupKey rest key

/-- `Store.loadFromSecret`, as the map it reconstructs: a candidate
cluster is loaded exactly when both of its keys are present. -/
def loadFromSecretAt (data : List (List Char × List Char)) (n : List Char) : Option CredsB :=
  if n ∈ candidateNames data then
    match lookupKey data (tokenKey n), lookupKey data (caKey n) with
    | some t, some c => some ⟨t, c⟩
    | _, _ => none
  else none

/-- In-memory credential map read, on the association-list model. -/
def lookupCred : List (List Char × CredsB) → List Char → Option CredsB
  | [], _ => none
  | (k, v) :: rest, key => if k = key then some v else lookupCred rest key

/-- Parsing a token key of a non-empty name recovers exactly that name. -/
theorem keyCandidate_tokenKey (n : List Char) (h : n ≠ []) :
    keyCandidate (tokenKey n) = some n := by
  have hlen : (tokenKey n).length = 8 + (n.length + 6) := by
    simp [tokenKey, clusterKeyHead, tokenSuf]
    omega
  have htake : (tokenKey n).take 8 = clusterKeyHead := by
    have h8 : clusterKeyHead.length = 8 := rfl
    rw [tokenKey, ← h8]
    exact List.take_left clusterKeyHead (n ++ tokenSuf)
  have hdrop : (tokenKey n).drop 8 = n ++ tokenSuf := by
    have h8 : clusterKeyHead.length = 8 := rfl
    rw [tokenKey, ← h8]
    exact List.drop_left clusterKeyHead (n ++ tokenSuf)
  have hslen : (n ++ tokenSuf).length = n.length + 6 := by simp [tokenSuf]
  have hnpos : 0 < n.length := List.length_pos.mpr h
  have e66 : n.length + 6 - 6 = n.length := by omega
  have hsdrop : (n ++ tokenSuf).drop (n.length + 6 - 6) = tokenSuf := by
    rw [e66]; exact List.drop_left n tokenSuf
  have hstake : (n ++ tokenSuf).take (n.length + 6 - 6) = n := by
    rw [e66]; exact List.take_left n tokenSuf
  rw [keyCandidate, if_pos ⟨by omega, htake⟩]
  simp only [hdrop, hslen]
  rw [if_pos ⟨by omega, hsdrop⟩, hstake]

/-- Parsing a CA key of a non-empty name recovers exactly that name: the
"-token" check fails and the "-ca.crt" check matches. -/
theorem keyCandidate_caKey (n : List Char) (h : n ≠ []) :
    keyCandidate (caKey n) = some n := by
  have htake : (caKey n).take 8 = clusterKeyHead := by
    have h8 : clusterKeyHead.length = 8 := rfl
    rw [caKey, ← h8]
    exact List.take_left clusterKeyHead (n ++ caSuf)
  have hdrop : (caKey n).drop 8 = n ++ caSuf := by
    have h8 : clusterKeyHead.length = 8 := rfl
    rw [caKey, ← h8]
    exact List.drop_left clusterKeyHead (n ++ caSuf)
  have hlen : (caKey n).length = 8 + (n.length + 7) := by
    simp [caKey, clusterKeyHead, caSuf]
    omega
  have hslen : (n ++ caSuf).length = n.length + 7 := by simp [caSuf]
  have hnpos : 0 < n.length := List.length_pos.mpr h
  have hnottok : (n ++ caSuf).drop (n.length + 7 - 6) ≠ tokenSuf := by
    have e1 : n.length + 7 - 6 = n.length + 1 := by omega
    rw [e1, ← List.drop_drop]
    rw [List.drop_left n caSuf]
    decide
  have e77 : n.length + 7 - 7 = n.length := by omega
  have hsdrop : (n ++ caSuf).drop (n.length + 7 - 7) = caSuf := by
    rw [e77]; exact List.drop_left n caSuf
  have hstake : (n ++ caSuf).take (n.length + 7 - 7) = n := by
    rw [e77]; exact List.take_left n caSuf
  rw [keyCandidate, if_pos ⟨by omega, htake⟩]
  simp only [hdrop, hslen]
  rw [if_neg (by intro hc; exact hnottok hc.2), if_pos ⟨by omega, hsdrop⟩, hstake]

/-- Token keys of distinct names are distinct. -/
theorem tokenKey_inj {n m : List Char} (h : tokenKey n = tokenKey m) : n = m := by
  have h1 : n ++ tokenSuf = m ++ tokenSuf := List.append_cancel_left h
  exact List.append_cancel_right h1

/-- CA keys of distinct names are distinct. -/
theorem caKey_inj {n m : List Char} (h : caKey n = caKey m) : n = m := by
  have h1 : n ++ caSuf = m ++ caSuf := List.append_cancel_left h
  exact List.append_cancel_right h1

/-- A token key never coincides with a CA key (distinct last bytes). -/
theorem tokenKey_ne_caKey (n m : List Char) : tokenKey n ≠ caKey m := by
  intro h
  have h1 : n ++ tokenSuf = m ++ caSuf := List.append_cancel_left h
  have h2 : (n ++ tokenSuf).reverse.head? = (m ++ caSuf).reverse.head? :=
    congrArg (fun l => l.reverse.head?) h1
  rw [List.reverse_append, List.reverse_append] at h2
  have e1 : tokenSuf.reverse = 'n' :: "ekot-".data := by decide
  have e2 : caSuf.reverse = 't' :: "rc.ac-".data := by decide
  rw [e1, e2] at h2
  simp at h2

/-- Looking a token key up in the saved Secret data recovers the token of
the first matching cluster, and nothing otherwise. -/
theorem lookupKey_save_token (l : List (List Char × CredsB)) (n : List Char) :
    lookupKey (saveToSecretData l) (tokenKey n) = (lookupCred l n).map CredsB.token := by
  induction l with
  | nil => rfl
  | cons p rest ih =>
    obtain ⟨m, c⟩ := p
    by_cases hmn : m = n
    · subst hmn
      simp [saveToSecretData, lookupKey, lookupCred]
    · have hk1 : tokenKey m ≠ tokenKey n := fun hc => hmn (tokenKey_inj hc)
      have hk2 : caKey m ≠ tokenKey n := fun hc => tokenKey_ne_caKey n m hc.symm
      simp [saveToSecretData, lookupKey, lookupCred, hk1, hk2, hmn, ih]

/-- Looking a CA key up in the saved Secret data recovers the CA bytes of
the first matching cluster, and nothing otherwise. -/
theorem lookupKey_save_ca (l : List (List Char × CredsB)) (n : List Char) :
    lookupKey (saveToSecretData l) (caKey n) = (lookupCred l n).map CredsB.ca := by
  induction l with
  | nil => rfl
  | cons p rest ih =>
    obtain ⟨m, c⟩ := p
    by_cases hmn : m = n
    · subst hmn
      have hk0 : tokenKey m ≠ caKey m := tokenKey_ne_caKey m m
      simp [saveToSecretData, lookupKey, lookupCred, hk0]
    · have hk1 : tokenKey m ≠ caKey n := tokenKey_ne_caKey m n
      have hk2 : caKey m ≠ caKey n := fun hc => hmn (caKey_inj hc)
      simp [saveToSecretData, lookupKey, lookupCred, hk1, hk2, hmn, ih]

/-- The candidate names of the saved Secret data are exactly the saved
cluster names (each from its two keys), provided names are non-empty. -/
theorem mem_candidates_save (l : List (List Char × CredsB))
    (hne : ∀ p ∈ l, p.1 ≠ []) (n : List Char) :
    n ∈ candidateNames (saveToSecretData l) ↔ n ∈ l.map Prod.fst := by
  induction l with
  | nil => simp [saveToSecretData, candidateNames]
  | cons p rest ih =>
    obtain ⟨m, c⟩ := p
    have hm : m ≠ [] := hne (m, c) (List.mem_cons_self _ _)
    have ihr := ih fun q hq => hne q (List.mem_cons_of_mem _ hq)
    simp [saveToSecretData, candidateNames, keyCandidate_tokenKey m hm,
      keyCandidate_caKey m hm, List.mem_cons, ihr]

/-- A name is a key of the association list iff `lookupCred` finds it. -/
theorem mem_map_fst_iff_lookupCred (l : List (List Char × CredsB)) (n : List Char) :
    n ∈ l.map Prod.fst ↔ ∃ c, lookupCred l n = some c := by
  induction l with
  | nil => simp [lookupCred]
  | cons p rest ih =>
    obtain ⟨m, c⟩ := p
    by_cases hmn : m = n
    · subst hmn
      simp [lookupCred]
    · simp [lookupCred, hmn, List.mem_cons, ih]
      tauto

/-- Claim C10: for every in-memory credential map with non-empty cluster
names, loading the saved Secret data reconstructs exactly the original
map — `loadFromSecretAt (saveToSecretData l)` agrees with the original
lookup at every name. -/
theorem claim_C10_roundtrip (l : List (List Char × CredsB))
    (hne : ∀ p ∈ l, p.1 ≠ []) (n : List Char) :
    loadFromSecretAt (saveToSecretData l) n = lookupCred l n := by
  by_cases hmem : n ∈ l.map Prod.fst
  · obtain ⟨c, hc⟩ := (mem_map_fst_iff_lookupCred l n).mp hmem
    have hcand : n ∈ candidateNames (saveToSecretData l) :=
      (mem_candidates_save l hne n).mpr hmem
    rw [loadFromSecretAt, if_pos hcand, lookupKey_save_token, lookupKey_save_ca, hc]
    simp
  · have hnone : lookupCred l n = none := by
      cases h : lookupCred l n with
      | none => rfl
      | some c => exact absurd ((mem_map_fst_iff_lookupCred l n).mpr ⟨c, h⟩) hmem
    have hcand : n ∉ candidateNames (saveToSecretData l) := by
      intro hc
      exact hmem ((mem_candidates_save l hne n).mp hc)
    rw [loadFromSecretAt, if_neg hcand, hnone]

/-- Witness for C10 at a concrete two-cluster map, including a name
containing "-token" as a substring. -/
theorem claim_C10_roundtrip_witness :
    loadFromSecretAt
      (saveToSecretData [("alpha".data, ⟨"tokA".data, "caA".data⟩),
        ("b-token".data, ⟨"tokB".data, "caB".data⟩)]) "b-token".data
      = some ⟨"tokB".data, "caB".data⟩ := by
  have h := claim_C10_roundtrip
    [("alpha".data, ⟨"tokA".data, "caA".data⟩),
      ("b-token".data, ⟨"tokB".data, "caB".data⟩)]
    (by decide) "b-token".data
  rw [h]
  decide

end KubeFedAuth
